import Mathlib

/-!
Verification of the font-subset pipeline (`scripts/utils.py`,
`scripts/process_fonts.py`) against its specification.

The Python sources are shallowly embedded: pure helpers become Lean
functions on `List Char` / `String`, fallible code returns `Except`,
and the I/O-driven orchestrators become explicit state passing with
the external collaborators (download, subsetting engine, regex match)
supplied as function parameters.
-/

set_option linter.unusedVariables false
set_option maxRecDepth 10000

deriving instance DecidableEq for Except

/-! ## Python string primitives used by `parse_unicode_range` -/

/-- Whitespace characters stripped by Python `str.strip()` (ASCII part). -/
def pySpace (c : Char) : Bool :=
  c == ' ' || c == '\t' || c == '\n' || c == '\r' || c == '\x0b' || c == '\x0c'

/-- Python `str.strip()` on a character list. -/
def pyStrip (cs : List Char) : List Char :=
  ((cs.dropWhile pySpace).reverse.dropWhile pySpace).reverse

/-- Python `range_str.replace('U+', '')`: removes every non-overlapping
occurrence of the two-character substring `U+`, scanning left to right. -/
def pyRemoveUPlus : List Char → List Char
  | [] => []
  | [c] => [c]
  | c :: d :: rest =>
    if c = 'U' ∧ d = '+' then pyRemoveUPlus rest
    else c :: pyRemoveUPlus (d :: rest)

/-- Python `str.split(sep)` for a single-character separator: keeps empty
fields, `"".split(sep) = [""]`. -/
def pySplit (sep : Char) : List Char → List (List Char)
  | [] => [[]]
  | c :: rest =>
    if c == sep then [] :: pySplit sep rest
    else
      match pySplit sep rest with
      | h :: t => (c :: h) :: t
      | [] => [[c]]

/-- Hexadecimal digit test (Python `int(_, 16)` accepts `0-9a-fA-F`). -/
def isHexDig (c : Char) : Bool :=
  (('0' ≤ c && c ≤ '9') || ('a' ≤ c && c ≤ 'f') || ('A' ≤ c && c ≤ 'F'))

/-- Numeric value of a hexadecimal digit. -/
def hexVal (c : Char) : Nat :=
  if '0' ≤ c && c ≤ '9' then c.toNat - 48
  else if 'a' ≤ c && c ≤ 'f' then c.toNat - 87
  else c.toNat - 55

/-- Digits after the first one: Python allows a single `_` between two
hexadecimal digits, nowhere else. -/
def hexTail : List Char → Nat → Option Nat
  | [], acc => some acc
  | '_' :: c :: rest, acc =>
    if isHexDig c then hexTail rest (acc * 16 + hexVal c) else none
  | '_' :: [], _ => none
  | c :: rest, acc =>
    if isHexDig c then hexTail rest (acc * 16 + hexVal c) else none

/-- A non-empty run of hexadecimal digits with optional single underscores. -/
def hexDigits : List Char → Option Nat
  | c :: rest => if isHexDig c then hexTail rest (hexVal c) else none
  | [] => none

/-- Python `int(s, 16)` magnitude part: optional `0x`/`0X` marker, after
which one `_` is allowed, then digits. -/
def pyIntHexCore (cs : List Char) : Option Nat :=
  match cs with
  | '0' :: x :: rest =>
    if x == 'x' || x == 'X' then
      match rest with
      | '_' :: rest2 => hexDigits rest2
      | _ => hexDigits rest
    else hexDigits cs
  | _ => hexDigits cs

/-- Python `int(s, 16)`: strips whitespace, accepts an optional sign, then
the magnitude; `none` models the `ValueError` raise. -/
def pyIntHex (cs : List Char) : Option Int :=
  match pyStrip cs with
  | '+' :: rest => (pyIntHexCore rest).map (fun n => (n : Int))
  | '-' :: rest => (pyIntHexCore rest).map (fun n => -(n : Int))
  | t => (pyIntHexCore t).map (fun n => (n : Int))

/-! ## `utils.parse_unicode_range` -/

/-- One comma-separated token of a range expression: either `start-end`
(the tuple unpack of `part.split('-')` demands exactly two pieces) or a
single hexadecimal value.  `.error` models the `ValueError` raise. -/
def parseToken (p : List Char) : Except String (Int × Int) :=
  if p.contains '-' then
    match pySplit '-' p with
    | [a, b] =>
      match pyIntHex a, pyIntHex b with
      | some s, some e => .ok (s, e)
      | _, _ => .error "invalid literal for int() with base 16"
    | _ => .error "values to unpack"
  else
    match pyIntHex p with
    | some c => .ok (c, c)
    | none => .error "invalid literal for int() with base 16"

/-- The token list produced by `parse_unicode_range` before per-token
parsing: `range_str.replace('U+', '').strip()` split on `,`, each part
stripped. -/
def pyTokens (s : String) : List (List Char) :=
  (pySplit ',' (pyStrip (pyRemoveUPlus s.data))).map pyStrip

/-- Sequential parsing of the token list; the first failing token aborts
the whole parse (Python raises out of the loop). -/
def parseParts : List (List Char) → Except String (List (Int × Int))
  | [] => .ok []
  | p :: rest =>
    match parseToken p with
    | .error e => .error e
    | .ok r => (parseParts rest).map (fun rs => r :: rs)

/-- Embedding of `utils.parse_unicode_range`. -/
def parse_unicode_range (s : String) : Except String (List (Int × Int)) :=
  parseParts (pyTokens s)

/-- Modelled from the spec (claim C3 reference semantics): the spec
describes a parser that strips one optional *leading* `U+` marker from
the whole expression and otherwise treats tokens identically; the
repository has no such function, so it is written here from the spec
words for comparison with `parse_unicode_range`. -/
def parseLeadingMarkerOnly (s : String) : Except String (List (Int × Int)) :=
  let cs0 := pyStrip s.data
  let cs :=
    match cs0 with
    | 'U' :: '+' :: rest => rest
    | other => other
  parseParts ((pySplit ',' (pyStrip cs)).map pyStrip)

/-! ## SHA-256 (`hashlib.sha256`), over natural numbers mod 2^32 -/

/-- Reduction modulo 2^32, the word size of SHA-256. -/
def Mod32 (n : Nat) : Nat := n % 4294967296

/-- Right rotation of a 32-bit word. -/
def rotr32 (n w : Nat) : Nat := Mod32 ((w >>> n) ||| (w <<< (32 - n)))

/-- SHA-256 `Ch` function. -/
def ch32 (e f g : Nat) : Nat := (e &&& f) ^^^ ((e ^^^ 4294967295) &&& g)

/-- SHA-256 `Maj` function. -/
def maj32 (a b c : Nat) : Nat := (a &&& b) ^^^ (a &&& c) ^^^ (b &&& c)

/-- SHA-256 big sigma 0. -/
def bsig0 (a : Nat) : Nat := rotr32 2 a ^^^ rotr32 13 a ^^^ rotr32 22 a

/-- SHA-256 big sigma 1. -/
def bsig1 (e : Nat) : Nat := rotr32 6 e ^^^ rotr32 11 e ^^^ rotr32 25 e

/-- SHA-256 small sigma 0. -/
def ssig0 (w : Nat) : Nat := rotr32 7 w ^^^ rotr32 18 w ^^^ (w >>> 3)

/-- SHA-256 small sigma 1. -/
def ssig1 (w : Nat) : Nat := rotr32 17 w ^^^ rotr32 19 w ^^^ (w >>> 10)

/-- SHA-256 round constants (decimal rendering of the FIPS 180-4 words). -/
def K256 : List Nat :=
  [1116352408, 1899447441, 3049323471, 3921009573, 961987163, 1508970993,
   2453635748, 2870763221, 3624381080, 310598401, 607225278, 1426881987,
   1925078388, 2162078206, 2614888103, 3248222580, 3835390401, 4022224774,
   264347078, 604807628, 770255983, 1249150122, 1555081692, 1996064986,
   2554220882, 2821834349, 2952996808, 3210313671, 3336571891, 3584528711,
   113926993, 338241895, 666307205, 773529912, 1294757372, 1396182291,
   1695183700, 1986661051, 2177026350, 2456956037, 2730485921, 2820302411,
   3259730800, 3345764771, 3516065817, 3600352804, 4094571909, 275423344,
   430227734, 506948616, 659060556, 883997877, 958139571, 1322822218,
   1537002063, 1747873779, 1955562222, 2024104815, 2227730452, 2361852424,
   2428436474, 2756734187, 3204031479, 3329325298]

/-- SHA-256 initial hash state (decimal rendering of the FIPS 180-4 words). -/
def H256 : List Nat :=
  [1779033703, 3144134277, 1013904242, 2773480762, 1359893119, 2600822924,
   528734635, 1541459225]

/-- Big-endian byte representation of `n` in `k` bytes. -/
def toBytesBE (k n : Nat) : List Nat :=
  (List.range k).map (fun i => (n >>> (8 * (k - 1 - i))) % 256)

/-- Merkle–Damgård padding: `0x80`, zeros to 56 mod 64, 8-byte bit length. -/
def padBytes (bs : List Nat) : List Nat :=
  bs ++ [128] ++ List.replicate ((119 - bs.length % 64) % 64) 0 ++ toBytesBE 8 (8 * bs.length)

/-- Big-endian 32-bit words of a byte list. -/
def wordsOfBytes (bs : List Nat) : List Nat :=
  (List.range (bs.length / 4)).map (fun i =>
    bs.getD (4 * i) 0 * 16777216 + bs.getD (4 * i + 1) 0 * 65536 +
      bs.getD (4 * i + 2) 0 * 256 + bs.getD (4 * i + 3) 0)

/-- The 64-entry message schedule extending the 16 words of one block. -/
def msgSchedule (ws : List Nat) : List Nat :=
  (List.range 48).foldl (fun acc _ =>
    acc ++ [Mod32 (ssig1 (acc.getD (acc.length - 2) 0) + acc.getD (acc.length - 7) 0 +
      ssig0 (acc.getD (acc.length - 15) 0) + acc.getD (acc.length - 16) 0)]) ws

/-- One round of the SHA-256 compression loop on state `[a,b,c,d,e,f,g,h]`. -/
def round256 (w : List Nat) (st : List Nat) (t : Nat) : List Nat :=
  let a := st.getD 0 0
  let b := st.getD 1 0
  let c := st.getD 2 0
  let d := st.getD 3 0
  let e := st.getD 4 0
  let f := st.getD 5 0
  let g := st.getD 6 0
  let h := st.getD 7 0
  let t1 := Mod32 (h + bsig1 e + ch32 e f g + K256.getD t 0 + w.getD t 0)
  let t2 := Mod32 (bsig0 a + maj32 a b c)
  [Mod32 (t1 + t2), a, b, c, Mod32 (d + t1), e, f, g]

/-- Compression of one 16-word block into the running hash state. -/
def compressBlock (H : List Nat) (ws : List Nat) : List Nat :=
  List.zipWith (fun x y => Mod32 (x + y)) H
    ((List.range 64).foldl (round256 (msgSchedule ws)) H)

/-- The 64-byte blocks of a padded message. -/
def chunksOf64 (bs : List Nat) : List (List Nat) :=
  (List.range (bs.length / 64)).map (fun i => (bs.drop (64 * i)).take 64)

/-- SHA-256 of a byte list, as eight 32-bit words. -/
def sha256words (msg : List Nat) : List Nat :=
  (chunksOf64 (padBytes msg)).foldl (fun H blk => compressBlock H (wordsOfBytes blk)) H256

/-- Lowercase hexadecimal digit character for a value below 16, computed
from the code point (digits from 48, letters from 87). -/
def hexChar (n : Nat) : Char :=
  if n < 10 then Char.ofNat (48 + n) else Char.ofNat (87 + n)

/-- The sixteen lowercase hexadecimal digit characters. -/
def hexCharList : List Char := (List.range 16).map hexChar

/-- Eight-digit lowercase hexadecimal rendering of a 32-bit word. -/
def toHex8 (w : Nat) : List Char :=
  (List.range 8).map (fun i => hexChar ((w >>> (4 * (7 - i))) % 16))

/-- The `hexdigest()` of SHA-256 over a byte list, as a character list. -/
def sha256hexChars (msg : List Nat) : List Char :=
  (sha256words msg).flatMap toHex8

/-- UTF-8 encoding of one character (Python `str.encode('utf-8')`). -/
def utf8Char (c : Char) : List Nat :=
  let n := c.toNat
  if n < 128 then [n]
  else if n < 2048 then [192 + n / 64, 128 + n % 64]
  else if n < 65536 then [224 + n / 4096, 128 + n / 64 % 64, 128 + n % 64]
  else [240 + n / 262144, 128 + n / 4096 % 64, 128 + n / 64 % 64, 128 + n % 64]

/-- UTF-8 byte encoding of a string. -/
def utf8Bytes (s : String) : List Nat := s.data.flatMap utf8Char

/-- Embedding of `utils.hash_id`: sha256 of `f"{id_value}{salt}"`, hex digest truncated to
`length` characters. -/
def hash_id (id_value : String) (length : Nat) (salt : String) : String :=
  ⟨(sha256hexChars (utf8Bytes (id_value ++ salt))).take length⟩

/-- The subset filename hash used by `FontProcessor.process_font_variant`:
`hash_id(f"{font_name}-{variant}-{range_id}")` with the default length 32
and default salt `'font-subset'`. -/
def subsetHash (font_name variant range_id : String) : String :=
  hash_id (font_name ++ "-" ++ variant ++ "-" ++ range_id) 32 "font-subset"

/-! ## `utils.generate_css` -/

/-- One element of `stats['subsets']` as built by
`FontProcessor.process_font_variant`. -/
structure SubsetEntry where
  id : String
  unicode_range : String
  filename : String
  size : Nat
deriving DecidableEq

/-- The pretty `@font-face` rule f-string of `generate_css`. -/
def cssRule (font_name : String) (weight : Int) (s : SubsetEntry) : String :=
  "/* " ++ s.id ++ " */\n@font-face \x7b\n  font-family: \x27" ++ font_name ++
    "\x27;\n  font-style: normal;\n  font-weight: " ++ toString weight ++
    ";\n  font-display: swap;\n  src: url(" ++ s.filename ++
    ") format(\x27woff2\x27);\n  unicode-range: " ++ s.unicode_range ++ ";\n\x7d"

/-- The minified `@font-face` rule f-string of `generate_css`. -/
def cssMinRule (font_name : String) (weight : Int) (s : SubsetEntry) : String :=
  "@font-face\x7bfont-family:\x27" ++ font_name ++ "\x27;font-style:normal;font-weight:" ++
    toString weight ++ ";font-display:swap;src:url(" ++ s.filename ++
    ") format(\x27woff2\x27);unicode-range:" ++ s.unicode_range ++ "\x7d"

/-- Embedding of `utils.generate_css`: one pass over the subsets accumulates the pretty
parts and the minified parts, then joins them with `'\n'.join` and
`''.join` respectively.  `variant` and `cdn_base_url` are accepted and
unused, exactly as in the source. -/
def generate_css (font_name : String) (variant : String) (weight : Int)
    (subsets : List SubsetEntry) (cdn_base_url : String) : String × String :=
  let parts := subsets.foldl
    (fun acc s => (acc.1 ++ [cssRule font_name weight s], acc.2 ++ [cssMinRule font_name weight s]))
    ([], [])
  (String.intercalate "\n" parts.1, String.join parts.2)

/-- The `(family, weight, filename, unicode-range)` tuple the spec says both
stylesheet forms encode for one rule. -/
def cssTupleOf (font_name : String) (weight : Int) (s : SubsetEntry) :
    String × Int × String × String :=
  (font_name, weight, s.filename, s.unicode_range)

/-- Modelled from the spec (claim C7 reference semantics): the pretty rule
as a function of the rule comment and the tuple alone. -/
def prettyRuleOfTuple (id : String) (t : String × Int × String × String) : String :=
  "/* " ++ id ++ " */\n@font-face \x7b\n  font-family: \x27" ++ t.1 ++
    "\x27;\n  font-style: normal;\n  font-weight: " ++ toString t.2.1 ++
    ";\n  font-display: swap;\n  src: url(" ++ t.2.2.1 ++
    ") format(\x27woff2\x27);\n  unicode-range: " ++ t.2.2.2 ++ ";\n\x7d"

/-- Modelled from the spec (claim C7 reference semantics): the minified rule
as a function of the tuple alone. -/
def minRuleOfTuple (t : String × Int × String × String) : String :=
  "@font-face\x7bfont-family:\x27" ++ t.1 ++ "\x27;font-style:normal;font-weight:" ++
    toString t.2.1 ++ ";font-display:swap;src:url(" ++ t.2.2.1 ++
    ") format(\x27woff2\x27);unicode-range:" ++ t.2.2.2 ++ "\x7d"

/-! ## `FontProcessor.create_subset` (subset builder) -/

/-- The `unicodes` set: the code points of the glyph inventory falling inside one of
the requested ranges (the double loop of `create_subset`). -/
def wantedUnicodes (glyphs : Finset ℕ) (ranges : List (Int × Int)) : Finset ℕ :=
  ranges.foldl (fun acc r => acc ∪ glyphs.filter (fun c => r.1 ≤ (c : Int) ∧ (c : Int) ≤ r.2)) ∅

/-- Embedding of `FontProcessor.create_subset`, with the fontTools subsetting engine
abstracted as `engine` (returning the output file size, or a structural
error).  Returns `.ok none` for the `return False` skip path, `.ok (some
size)` for a successful build, `.error` when the engine raises. -/
def create_subset (glyphs : Finset ℕ) (ranges : List (Int × Int))
    (engine : Finset ℕ → Except String Nat) : Except String (Option Nat) :=
  if wantedUnicodes glyphs ranges = ∅ then .ok none
  else (engine (wantedUnicodes glyphs ranges)).map some

/-! ## `FontProcessor.process_font_variant` (variant orchestrator) -/

/-- The `stats` record of one variant run. -/
structure VariantStats where
  total_ranges : Nat
  created_subsets : Nat
  skipped_ranges : Nat
  total_size : Nat
  subsets : List SubsetEntry
deriving DecidableEq

/-- The literal `cdn_base_url` argument passed by `process_font_variant`. -/
def cdnBaseUrl : String := "https://cdn.jsdelivr.net/gh/\x7bREPO_NAME\x7d@latest/fonts"

/-- The `try`/`except` block of the per-range loop: how the stats react to
the outcome of one `create_subset` attempt.  A successful build records
the subset entry; the skip path and the caught exception path both count
the range as skipped. -/
def applyBuildResult (st : VariantStats) (range_id unicode_range output_filename : String)
    (res : Except String (Option Nat)) : VariantStats :=
  match res with
  | .ok (some size) =>
    { st with
      created_subsets := st.created_subsets + 1
      total_size := st.total_size + size
      subsets := st.subsets ++ [⟨range_id, unicode_range, output_filename, size⟩] }
  | .ok none => { st with skipped_ranges := st.skipped_ranges + 1 }
  | .error _ => { st with skipped_ranges := st.skipped_ranges + 1 }

/-- The body of the per-range loop of `process_font_variant`.  The call to
`parse_unicode_range` sits *outside* the `try`, so its failure propagates;
any `create_subset` outcome is absorbed into the stats. -/
def processRange (font_name variant : String) (glyphs : Finset ℕ)
    (engine : Finset ℕ → Except String Nat) (st : VariantStats)
    (range_id unicode_range : String) : Except String VariantStats :=
  match parse_unicode_range unicode_range with
  | .error e => .error e
  | .ok parsed =>
    .ok (applyBuildResult st range_id unicode_range
      (font_name ++ "-" ++ variant ++ "-" ++ subsetHash font_name variant range_id ++ ".woff2")
      (create_subset glyphs parsed engine))

/-- The per-range loop over the catalog (insertion-ordered dict items). -/
def processRangesLoop (font_name variant : String) (glyphs : Finset ℕ)
    (engine : Finset ℕ → Except String Nat) :
    List (String × String) → VariantStats → Except String VariantStats
  | [], st => .ok st
  | (rid, expr) :: rest, st =>
    match processRange font_name variant glyphs engine st rid expr with
    | .error e => .error e
    | .ok st1 => processRangesLoop font_name variant glyphs engine rest st1

/-- Embedding of `FontProcessor.process_font_variant`: runs the per-range loop, then
generates the two CSS documents from the collected subsets.  An uncaught
exception inside the loop aborts the variant (no CSS is produced). -/
def process_font_variant (font_name variant : String) (weight : Int)
    (glyphs : Finset ℕ) (engine : Finset ℕ → Except String Nat)
    (catalog : List (String × String)) :
    Except String (VariantStats × String × String) :=
  match processRangesLoop font_name variant glyphs engine catalog
      ⟨catalog.length, 0, 0, 0, []⟩ with
  | .error e => .error e
  | .ok st =>
    .ok (st, (generate_css font_name variant weight st.subsets cdnBaseUrl).1,
      (generate_css font_name variant weight st.subsets cdnBaseUrl).2)

/-! ## `FontProcessor.process_update` (download cache portion) -/

/-- One element of `update_info['assets']`. -/
structure Asset where
  name : String
  browser_download_url : String
deriving DecidableEq

/-- One element of `font_config['files']`. -/
structure FileConfig where
  asset_pattern : Option String
  font_pattern : Option String
deriving DecidableEq

/-- Embedding of `utils.find_asset_by_pattern`: first asset whose name the pattern
matches; `reMatch` abstracts `re.search`. -/
def find_asset_by_pattern (reMatch : String → String → Bool)
    (assets : List Asset) (pattern : String) : Option Asset :=
  assets.find? (fun a => reMatch pattern a.name)

/-- The download-relevant state of one `process_update` run: the
`download_cache` dict (url → local path), the set of files present in the
temp directory, and how many times `download_file` has executed. -/
structure DLState where
  cache : List (String × String)
  fs : List String
  downloads : Nat
deriving DecidableEq

/-- Python dict lookup in the download cache. -/
def lookupCache (cache : List (String × String)) (url : String) : Option String :=
  (cache.find? (fun p => p.1 == url)).map (fun p => p.2)

/-- The download portion of the `process_update` loop body for one file
config: resolve the asset, then either reuse the cached path, skip the
download because the file already exists, download, or skip the config on
failure.  Returns the resolved local path (`none` when the config is
skipped by a `continue`). -/
def downloadStep (reMatch : String → String → Bool) (downloadOk : String → Bool)
    (assets : List Asset) (st : DLState) (cfg : FileConfig) : DLState × Option String :=
  match cfg.asset_pattern with
  | none => (st, none)
  | some pat =>
    match find_asset_by_pattern reMatch assets pat with
    | none => (st, none)
    | some asset =>
      match lookupCache st.cache asset.browser_download_url with
      | some cached => (st, some cached)
      | none =>
        if st.fs.contains asset.name then
          ({ st with cache := st.cache ++ [(asset.browser_download_url, asset.name)] },
            some asset.name)
        else if downloadOk asset.browser_download_url then
          ({ cache := st.cache ++ [(asset.browser_download_url, asset.name)],
             fs := st.fs ++ [asset.name],
             downloads := st.downloads + 1 }, some asset.name)
        else (st, none)

/-- The download portion of the `process_update` loop over all file
configs, collecting each config's resolved path. -/
def processDownloads (reMatch : String → String → Bool) (downloadOk : String → Bool)
    (assets : List Asset) : List FileConfig → DLState → DLState × List (Option String)
  | [], st => (st, [])
  | cfg :: rest, st =>
    match downloadStep reMatch downloadOk assets st cfg with
    | (st1, p) =>
      match processDownloads reMatch downloadOk assets rest st1 with
      | (st2, ps) => (st2, p :: ps)

/-! ## `main` (fleet orchestration and version ledger) -/

/-- One element of `updates.json`. -/
structure UpdateInfo where
  name : String
  version : String
  published_at : String
deriving DecidableEq

/-- One value of `versions.json`. -/
structure VersionEntry where
  version : String
  updated_at : String
deriving DecidableEq

/-- Python dict assignment `versions[name] = entry` on an
insertion-ordered association list. -/
def setKey : List (String × VersionEntry) → String → VersionEntry →
    List (String × VersionEntry)
  | [], k, v => [(k, v)]
  | (k1, v1) :: rest, k, v =>
    if k1 == k then (k1, v) :: rest else (k1, v1) :: setKey rest k v

/-- Python dict lookup in the version ledger. -/
def lookupKey (vs : List (String × VersionEntry)) (k : String) : Option VersionEntry :=
  (vs.find? (fun p => p.1 == k)).map (fun p => p.2)

/-- The version-ledger write-back loop at the end of `main`: every element
of `updates` gets its entry written, with no reference to worker
outcomes. -/
def updateVersionLedger (versions : List (String × VersionEntry))
    (updates : List UpdateInfo) : List (String × VersionEntry) :=
  updates.foldl (fun vs u => setKey vs u.name ⟨u.version, u.published_at⟩) versions

/-- Embedding of `main` after the workers complete: `outcome` abstracts whether each
font's `process_update` future raised; `main` counts the failures and then
runs the ledger write-back over all updates. -/
def mainRun (outcome : UpdateInfo → Bool) (updates : List UpdateInfo)
    (versions : List (String × VersionEntry)) :
    Nat × List (String × VersionEntry) :=
  ((updates.filter (fun u => !outcome u)).length, updateVersionLedger versions updates)

/-! ## Helper lemmas -/

theorem isOk_ok {α ε : Type} (a : α) : (Except.ok a : Except ε α).isOk = true := rfl

theorem isOk_error {α ε : Type} (e : ε) : (Except.error e : Except ε α).isOk = false := rfl

theorem exceptMap_isOk {α β ε : Type} (f : α → β) (x : Except ε α) :
    (x.map f).isOk = x.isOk := by
  cases x <;> rfl

theorem parseParts_isOk_iff (l : List (List Char)) :
    (parseParts l).isOk = true ↔ ∀ t ∈ l, (parseToken t).isOk = true := by
  induction l with
  | nil => simp [parseParts, isOk_ok]
  | cons p rest ih =>
    simp only [parseParts]
    cases h : parseToken p with
    | error e => simp [isOk_error, h]
    | ok r =>
      rw [exceptMap_isOk, ih]
      simp [h, isOk_ok]

theorem pyRemoveUPlus_nil_or_single (c : Char) :
    pyRemoveUPlus [c] = [c] := by
  simp [pyRemoveUPlus]

theorem pyRemoveUPlus_cons_ne (c : Char) (l : List Char) (h : c ≠ 'U') :
    pyRemoveUPlus (c :: l) = c :: pyRemoveUPlus l := by
  cases l with
  | nil => simp [pyRemoveUPlus]
  | cons d rest =>
    rw [pyRemoveUPlus]
    rw [if_neg (by intro hc; exact h hc.1)]

theorem pyRemoveUPlus_append_of_forall_ne (l1 l2 : List Char)
    (h : ∀ c ∈ l1, c ≠ 'U') :
    pyRemoveUPlus (l1 ++ l2) = l1 ++ pyRemoveUPlus l2 := by
  induction l1 with
  | nil => rfl
  | cons c t ih =>
    rw [List.cons_append, pyRemoveUPlus_cons_ne c _ (h c (by simp)),
      ih (fun x hx => h x (by simp [hx])), List.cons_append]

theorem pyRemoveUPlus_UPlus (l : List Char) :
    pyRemoveUPlus ('U' :: '+' :: l) = pyRemoveUPlus l := by
  rw [pyRemoveUPlus, if_pos ⟨rfl, rfl⟩]

/-! ## Claim C1 -/

/-- C1 (code bug): the spec requires that a font whose processing failed
contributes zero version-ledger updates, but `main` writes a ledger entry
for *every* element of `updates`.  Concretely: five fonts, the worker for
`font3` raises, `main` counts one failure — yet `font3`'s ledger entry is
overwritten with the new version all the same. -/
theorem c1_failed_font_still_gets_ledger_entry :
    mainRun (fun u => !(u.name == "font3"))
      [⟨"font1", "v2", "t1"⟩, ⟨"font2", "v2", "t2"⟩, ⟨"font3", "v2", "t3"⟩,
       ⟨"font4", "v2", "t4"⟩, ⟨"font5", "v2", "t5"⟩]
      [("font3", ⟨"v1", "t0"⟩)] =
    (1, [("font3", ⟨"v2", "t3"⟩), ("font1", ⟨"v2", "t1"⟩), ("font2", ⟨"v2", "t2"⟩),
         ("font4", ⟨"v2", "t4"⟩), ("font5", ⟨"v2", "t5"⟩)]) ∧
    lookupKey (mainRun (fun u => !(u.name == "font3"))
      [⟨"font1", "v2", "t1"⟩, ⟨"font2", "v2", "t2"⟩, ⟨"font3", "v2", "t3"⟩,
       ⟨"font4", "v2", "t4"⟩, ⟨"font5", "v2", "t5"⟩]
      [("font3", ⟨"v1", "t0"⟩)]).2 "font3" = some ⟨"v2", "t3"⟩ := by
  decide

/-! ## Claim C2 -/

/-- C2 counterexample: the expression `"FF-0"` has parsed start 255
exceeding parsed end 0; the claim says this raises `MalformedRangeError`,
but `parse_unicode_range` returns the inverted pair with no error. -/
theorem c2_counterexample_inverted_range_accepted :
    parse_unicode_range "FF-0" = .ok [((255 : Int), 0)] ∧ ¬((255 : Int) ≤ 0) := by
  decide

/-- C2 (amended): a token that is not a valid hexadecimal value or a
`start-end` pair of such values makes `parse_unicode_range` raise, but the
parser performs no ordering validation — an inverted token such as
`"FF-0"` is returned as `(255, 0)` with start > end. -/
theorem c2_malformed_token_errors_but_no_order_check :
    (∀ s : String, (∃ t ∈ pyTokens s, (parseToken t).isOk = false) →
      (parse_unicode_range s).isOk = false) ∧
    parse_unicode_range "FF-0" = .ok [((255 : Int), 0)] := by
  constructor
  · intro s ⟨t, ht, hbad⟩
    unfold parse_unicode_range
    cases hok : (parseParts (pyTokens s)).isOk
    · rfl
    · have := (parseParts_isOk_iff _).mp hok t ht
      rw [hbad] at this
      cases this
  · decide

/-- C2 witness: `"GG"` tokenizes to a single malformed token and the parse
indeed fails. -/
theorem c2_witness :
    (∃ t ∈ pyTokens "GG", (parseToken t).isOk = false) ∧
      (parse_unicode_range "GG").isOk = false :=
  ⟨by decide, c2_malformed_token_errors_but_no_order_check.1 "GG" (by decide)⟩

/-! ## Claim C3 -/

/-- C3 counterexample: under the claimed semantics (a single leading `U+`
stripped, never per token) the expression `"U+0,U+1"` has the malformed
second token `U+1` and must fail; `parse_unicode_range` strips both
markers and succeeds. -/
theorem c3_counterexample_per_token_marker_accepted :
    parse_unicode_range "U+0,U+1" = .ok [((0 : Int), 0), (1, 1)] ∧
      (parseLeadingMarkerOnly "U+0,U+1").isOk = false := by
  decide

/-- C3 (amended): `parse_unicode_range` deletes every occurrence of the
substring `U+` anywhere in the expression (one global left-to-right
`str.replace`), so a `U+` marker on a later comma-separated token is
stripped exactly like a leading one: prefixing the second token with `U+`
does not change the result. -/
theorem c3_marker_stripped_globally :
    ∀ t1 t2 : List Char, (∀ c ∈ t1, isHexDig c = true) →
      parse_unicode_range ⟨'U' :: '+' :: (t1 ++ ',' :: 'U' :: '+' :: t2)⟩ =
        parse_unicode_range ⟨'U' :: '+' :: (t1 ++ ',' :: t2)⟩ := by
  intro t1 t2 h1
  have hne : ∀ c ∈ t1, c ≠ 'U' := by
    intro c hc hU
    have hx := h1 c hc
    rw [hU] at hx
    exact absurd hx (by decide)
  show parseParts ((pySplit ','
      (pyStrip (pyRemoveUPlus ('U' :: '+' :: (t1 ++ ',' :: 'U' :: '+' :: t2))))).map pyStrip) =
    parseParts ((pySplit ','
      (pyStrip (pyRemoveUPlus ('U' :: '+' :: (t1 ++ ',' :: t2))))).map pyStrip)
  have e1 : pyRemoveUPlus ('U' :: '+' :: (t1 ++ ',' :: 'U' :: '+' :: t2)) =
      pyRemoveUPlus ('U' :: '+' :: (t1 ++ ',' :: t2)) := by
    rw [pyRemoveUPlus_UPlus, pyRemoveUPlus_UPlus,
      pyRemoveUPlus_append_of_forall_ne _ _ hne,
      pyRemoveUPlus_append_of_forall_ne _ _ hne,
      pyRemoveUPlus_cons_ne ',' _ (by decide),
      pyRemoveUPlus_cons_ne ',' _ (by decide), pyRemoveUPlus_UPlus]
  rw [e1]

/-- C3 witness: instantiates the global-strip theorem at the concrete
hexadecimal tokens `4E` and `FF`. -/
theorem c3_witness :
    (∀ c ∈ ['4', 'E'], isHexDig c = true) ∧
      parse_unicode_range ⟨'U' :: '+' :: (['4', 'E'] ++ ',' :: 'U' :: '+' :: ['F', 'F'])⟩ =
        parse_unicode_range ⟨'U' :: '+' :: (['4', 'E'] ++ ',' :: ['F', 'F'])⟩ :=
  ⟨by decide, c3_marker_stripped_globally ['4', 'E'] ['F', 'F'] (by decide)⟩

/-! ## Claim C10 -/

/-- C10: the namer digests only the hyphen-joined concatenation
`f"{font_name}-{variant}-{range_id}"`, so the distinct triples
`("a", "b-c", "d")` and `("a-b", "c", "d")` — whose joins are both
`"a-b-c-d"` — receive the identical filename hash. -/
theorem c10_hash_collision_on_hyphen_join :
    subsetHash "a" "b-c" "d" = subsetHash "a-b" "c" "d" ∧
      (("a", "b-c", "d") : String × String × String) ≠ ("a-b", "c", "d") := by
  constructor
  · have h : ("a" ++ "-" ++ "b-c" ++ "-" ++ "d" : String) = "a-b" ++ "-" ++ "c" ++ "-" ++ "d" := by
      decide
    unfold subsetHash
    rw [h]
  · decide

/-! ## Claim C4 -/

theorem mem_wanted_foldl (glyphs : Finset ℕ) (ranges : List (Int × Int))
    (acc : Finset ℕ) (c : ℕ) :
    (c ∈ ranges.foldl
        (fun (a : Finset ℕ) (r : Int × Int) =>
          a ∪ glyphs.filter (fun (x : ℕ) => r.1 ≤ (x : Int) ∧ (x : Int) ≤ r.2)) acc) ↔
      c ∈ acc ∨ ∃ r ∈ ranges, c ∈ glyphs ∧ r.1 ≤ (c : Int) ∧ (c : Int) ≤ r.2 := by
  induction ranges generalizing acc with
  | nil => simp
  | cons r rs ih =>
    rw [List.foldl_cons, ih]
    simp only [Finset.mem_union, Finset.mem_filter, List.mem_cons]
    constructor
    · rintro ((h | ⟨hg, h1, h2⟩) | ⟨q, hq, hg, h1, h2⟩)
      · exact Or.inl h
      · exact Or.inr ⟨r, Or.inl rfl, hg, h1, h2⟩
      · exact Or.inr ⟨q, Or.inr hq, hg, h1, h2⟩
    · rintro (h | ⟨q, (rfl | hq), hg, h1, h2⟩)
      · exact Or.inl (Or.inl h)
      · exact Or.inl (Or.inr ⟨hg, h1, h2⟩)
      · exact Or.inr ⟨q, hq, hg, h1, h2⟩

/-- C4: when the glyph inventory has empty intersection with the union of
the requested ranges, `create_subset` takes the `return False` (Skipped)
path, for every behaviour of the subsetting engine — in particular it
never raises. -/
theorem c4_empty_intersection_returns_skipped (glyphs : Finset ℕ)
    (ranges : List (Int × Int)) (engine : Finset ℕ → Except String Nat)
    (h : ∀ c ∈ glyphs, ∀ r ∈ ranges, ¬(r.1 ≤ (c : Int) ∧ (c : Int) ≤ r.2)) :
    create_subset glyphs ranges engine = .ok none := by
  have hempty : wantedUnicodes glyphs ranges = ∅ := by
    rw [Finset.eq_empty_iff_forall_not_mem]
    intro c hc
    rw [wantedUnicodes, mem_wanted_foldl] at hc
    rcases hc with h0 | ⟨r, hr, hg, h1, h2⟩
    · exact Finset.not_mem_empty c h0
    · exact h c hg r hr ⟨h1, h2⟩
  rw [create_subset, if_pos hempty]

/-- C4 witness: a Latin-only inventory `{65, 97}` against CJK and kana
ranges: the builder returns Skipped even under an engine that always
raises. -/
theorem c4_witness :
    (∀ c ∈ ({65, 97} : Finset ℕ),
        ∀ r ∈ [((0x4E00 : Int), (0x9FFF : Int)), ((0x3000 : Int), (0x303F : Int))],
          ¬(r.1 ≤ (c : Int) ∧ (c : Int) ≤ r.2)) ∧
      create_subset {65, 97} [((0x4E00 : Int), (0x9FFF : Int)), ((0x3000 : Int), (0x303F : Int))]
        (fun _ => .error "structural error") = .ok none :=
  ⟨by decide, c4_empty_intersection_returns_skipped _ _ _ (by decide)⟩

/-! ## Claims C6 and C7 -/

theorem generate_css_foldl (fn v : String) (w : Int) (cdn : String)
    (subsets : List SubsetEntry) :
    generate_css fn v w subsets cdn =
      (String.intercalate "\n" (subsets.map (cssRule fn w)),
       String.join (subsets.map (cssMinRule fn w))) := by
  unfold generate_css
  have h : ∀ (l : List SubsetEntry) (acc : List String × List String),
      l.foldl (fun acc s => (acc.1 ++ [cssRule fn w s], acc.2 ++ [cssMinRule fn w s])) acc =
        (acc.1 ++ l.map (cssRule fn w), acc.2 ++ l.map (cssMinRule fn w)) := by
    intro l
    induction l with
    | nil => intro acc; simp
    | cons s t ih => intro acc; rw [List.foldl_cons, ih]; simp
  rw [h]
  simp

/-- C6: CSS emission is order-preserving — the emitted stylesheets are
exactly the per-result rules of the input list, joined in the order the
`Built` results were received, with no re-sorting by any other key. -/
theorem c6_css_rule_order_preserved (fn v : String) (w : Int) (cdn : String)
    (subsets : List SubsetEntry) :
    (generate_css fn v w subsets cdn).1 =
        String.intercalate "\n" (subsets.map (cssRule fn w)) ∧
      (generate_css fn v w subsets cdn).2 =
        String.join (subsets.map (cssMinRule fn w)) := by
  rw [generate_css_foldl]
  exact ⟨rfl, rfl⟩

theorem zipWith_map_same {α β γ δ : Type} (f : β → γ → δ) (g : α → β) (h : α → γ)
    (l : List α) :
    List.zipWith f (l.map g) (l.map h) = l.map (fun x => f (g x) (h x)) := by
  induction l with
  | nil => rfl
  | cons a t ih => simp [ih]

/-- C7: both stylesheet forms produced by one `generate_css` call factor
through the single sequence of `(family, weight, filename, unicode-range)`
tuples `subsets.map (cssTupleOf fn w)`: the pretty form renders each tuple
(plus the range-id comment) and the minified form renders exactly the same
tuple sequence, so the two forms cannot diverge in content. -/
theorem c7_both_forms_encode_same_tuples (fn v : String) (w : Int) (cdn : String)
    (subsets : List SubsetEntry) :
    (generate_css fn v w subsets cdn).1 =
        String.intercalate "\n"
          (List.zipWith prettyRuleOfTuple (subsets.map SubsetEntry.id)
            (subsets.map (cssTupleOf fn w))) ∧
      (generate_css fn v w subsets cdn).2 =
        String.join ((subsets.map (cssTupleOf fn w)).map minRuleOfTuple) := by
  rw [generate_css_foldl]
  constructor
  · rw [zipWith_map_same]
    rfl
  · rw [List.map_map]
    rfl

/-! ## Claim C5 -/

theorem round256_length (w st : List Nat) (t : Nat) : (round256 w st t).length = 8 := rfl

theorem foldl_round_length (w : List Nat) (l : List Nat) (st : List Nat)
    (h : st.length = 8) : (l.foldl (round256 w) st).length = 8 := by
  induction l generalizing st with
  | nil => exact h
  | cons a t ih => exact ih _ (round256_length w st a)

theorem compressBlock_length (H ws : List Nat) (h : H.length = 8) :
    (compressBlock H ws).length = 8 := by
  rw [compressBlock, List.length_zipWith, h, foldl_round_length _ _ _ h]
  decide

theorem sha256words_length (msg : List Nat) : (sha256words msg).length = 8 := by
  rw [sha256words]
  have h : ∀ (chunks : List (List Nat)) (H : List Nat), H.length = 8 →
      (chunks.foldl (fun H blk => compressBlock H (wordsOfBytes blk)) H).length = 8 := by
    intro chunks
    induction chunks with
    | nil => intro H h; exact h
    | cons b t ih => intro H h; exact ih _ (compressBlock_length _ _ h)
  exact h _ H256 rfl

theorem toHex8_length (w : Nat) : (toHex8 w).length = 8 := by
  simp [toHex8]

theorem flatMap_toHex8_length (l : List Nat) : (l.flatMap toHex8).length = 8 * l.length := by
  induction l with
  | nil => rfl
  | cons a t ih => simp only [List.flatMap_cons, List.length_append, toHex8_length,
      List.length_cons, ih]; omega

theorem sha256hexChars_length (msg : List Nat) : (sha256hexChars msg).length = 64 := by
  rw [sha256hexChars, flatMap_toHex8_length, sha256words_length]

theorem hexChar_mem {n : Nat} (h : n < 16) : hexChar n ∈ hexCharList := by
  rw [hexCharList]
  exact List.mem_map.mpr ⟨n, List.mem_range.mpr h, rfl⟩

theorem mem_sha256hexChars {c : Char} {msg : List Nat}
    (h : c ∈ sha256hexChars msg) : c ∈ hexCharList := by
  rw [sha256hexChars, List.mem_flatMap] at h
  rcases h with ⟨w, _, hc⟩
  rw [toHex8, List.mem_map] at hc
  rcases hc with ⟨i, _, rfl⟩
  exact hexChar_mem (Nat.mod_lt _ (by decide))

/-- C5: the namer used for subset filenames is a pure function of the
`(fontName, variant, rangeId)` triple — identical inputs give identical
output — and it is computed exactly as the spec describes: the three
fields are hyphen-concatenated, the fixed salt `'font-subset'` is
appended, SHA-256 is applied, and the hex digest is truncated to a
32-character hexadecimal prefix. -/
theorem c5_namer_pure_and_structured :
    ∀ f v r : String,
      subsetHash f v r = subsetHash f v r ∧
      subsetHash f v r = hash_id (f ++ "-" ++ v ++ "-" ++ r) 32 "font-subset" ∧
      subsetHash f v r =
        ⟨(sha256hexChars (utf8Bytes ((f ++ "-" ++ v ++ "-" ++ r) ++ "font-subset"))).take 32⟩ ∧
      (subsetHash f v r).length = 32 ∧
      ∀ c ∈ (subsetHash f v r).data, c ∈ hexCharList := by
  intro f v r
  refine ⟨rfl, rfl, rfl, ?_, ?_⟩
  · show ((sha256hexChars (utf8Bytes ((f ++ "-" ++ v ++ "-" ++ r) ++ "font-subset"))).take 32).length = 32
    rw [List.length_take, sha256hexChars_length]
    decide
  · intro c hc
    exact mem_sha256hexChars (List.take_subset _ _ hc)

/-- C5 witness: instantiates the namer theorem at a concrete triple; the
digest character `'d'` (the first character of the resulting identifier)
is a hexadecimal digit. -/
theorem c5_witness :
    'd' ∈ (subsetHash "NotoSansSC" "regular" "cjk").data ∧ 'd' ∈ hexCharList :=
  ⟨by decide, (c5_namer_pure_and_structured "NotoSansSC" "regular" "cjk").2.2.2.2 'd' (by decide)⟩

/-! ## Claim C8 -/

/-- C8: within one font's update, the download cache is keyed by source
URL: when two file configs resolve (possibly via different patterns) to
assets with the same download URL, processing them downloads exactly once,
and the second config reuses the locally cached path stored by the
first. -/
theorem c8_same_url_downloads_once
    (reMatch : String → String → Bool) (downloadOk : String → Bool)
    (assets : List Asset) (cfg1 cfg2 : FileConfig) (pat1 pat2 : String)
    (a1 a2 : Asset)
    (h1 : cfg1.asset_pattern = some pat1) (h2 : cfg2.asset_pattern = some pat2)
    (hf1 : find_asset_by_pattern reMatch assets pat1 = some a1)
    (hf2 : find_asset_by_pattern reMatch assets pat2 = some a2)
    (hurl : a2.browser_download_url = a1.browser_download_url)
    (hdl : downloadOk a1.browser_download_url = true) :
    processDownloads reMatch downloadOk assets [cfg1, cfg2] ⟨[], [], 0⟩ =
      (⟨[(a1.browser_download_url, a1.name)], [a1.name], 1⟩,
        [some a1.name, some a1.name]) := by
  have step1 : downloadStep reMatch downloadOk assets ⟨[], [], 0⟩ cfg1 =
      (⟨[(a1.browser_download_url, a1.name)], [a1.name], 1⟩, some a1.name) := by
    simp [downloadStep.eq_def, h1, hf1, hdl, lookupCache]
  have step2 : downloadStep reMatch downloadOk assets
      ⟨[(a1.browser_download_url, a1.name)], [a1.name], 1⟩ cfg2 =
      (⟨[(a1.browser_download_url, a1.name)], [a1.name], 1⟩, some a1.name) := by
    simp [downloadStep.eq_def, h2, hf2, hurl, lookupCache, List.find?]
  simp only [processDownloads, step1, step2]

/-- C8 witness: one release asset matched by the same pattern in two
variant configs; the two-config run performs a single download and both
configs resolve to the same local file. -/
theorem c8_witness :
    processDownloads (fun p n => p == n) (fun _ => true)
      [⟨"font.zip", "https://dl.example/font.zip"⟩]
      [⟨some "font.zip", none⟩, ⟨some "font.zip", none⟩] ⟨[], [], 0⟩ =
      (⟨[("https://dl.example/font.zip", "font.zip")], ["font.zip"], 1⟩,
        [some "font.zip", some "font.zip"]) :=
  c8_same_url_downloads_once (fun p n => p == n) (fun _ => true)
    [⟨"font.zip", "https://dl.example/font.zip"⟩]
    ⟨some "font.zip", none⟩ ⟨some "font.zip", none⟩ "font.zip" "font.zip"
    ⟨"font.zip", "https://dl.example/font.zip"⟩
    ⟨"font.zip", "https://dl.example/font.zip"⟩
    rfl rfl (by decide) (by decide) rfl rfl

/-! ## Claim C9 -/

theorem applyBuildResult_count (st : VariantStats) (rid expr fname : String)
    (res : Except String (Option Nat)) :
    (applyBuildResult st rid expr fname res).created_subsets +
        (applyBuildResult st rid expr fname res).skipped_ranges =
      st.created_subsets + st.skipped_ranges + 1 := by
  rcases res with e | r
  · simp [applyBuildResult]; omega
  · rcases r with _ | size <;> simp [applyBuildResult] <;> omega

theorem processRange_ok (fn v : String) (glyphs : Finset ℕ)
    (engine : Finset ℕ → Except String Nat) (st : VariantStats)
    (rid expr : String) (h : (parse_unicode_range expr).isOk = true) :
    ∃ st1, processRange fn v glyphs engine st rid expr = .ok st1 ∧
      st1.created_subsets + st1.skipped_ranges =
        st.created_subsets + st.skipped_ranges + 1 := by
  rw [processRange.eq_def]
  cases hp : parse_unicode_range expr with
  | error e => rw [hp] at h; cases h
  | ok parsed => exact ⟨_, rfl, applyBuildResult_count ..⟩

theorem processRangesLoop_ok (fn v : String) (glyphs : Finset ℕ)
    (engine : Finset ℕ → Except String Nat) :
    ∀ (catalog : List (String × String)) (st : VariantStats),
      (∀ p ∈ catalog, (parse_unicode_range p.2).isOk = true) →
      ∃ st1, processRangesLoop fn v glyphs engine catalog st = .ok st1 ∧
        st1.created_subsets + st1.skipped_ranges =
          st.created_subsets + st.skipped_ranges + catalog.length := by
  intro catalog
  induction catalog with
  | nil => intro st h; exact ⟨st, rfl, by simp⟩
  | cons p rest ih =>
    intro st h
    obtain ⟨rid, expr⟩ := p
    obtain ⟨st1, hst1, hcnt1⟩ :=
      processRange_ok fn v glyphs engine st rid expr (h (rid, expr) (by simp))
    obtain ⟨st2, hst2, hcnt2⟩ := ih st1 (fun q hq => h q (List.mem_cons_of_mem _ hq))
    refine ⟨st2, ?_, ?_⟩
    · simp only [processRangesLoop, hst1]
      exact hst2
    · simp only [List.length_cons]
      omega

/-- C9 (amended): a `create_subset` failure on one catalog entry is caught,
counted as skipped, and never aborts the variant — whenever every catalog
entry's range expression parses, `process_font_variant` succeeds, every
entry is accounted for as created or skipped, and the CSS documents are
emitted from the collected subsets.  A parse failure, by contrast, is
raised outside the per-range `try` and aborts the whole variant (see the
counterexample). -/
theorem c9_build_failures_contained (fn v : String) (w : Int)
    (glyphs : Finset ℕ) (engine : Finset ℕ → Except String Nat)
    (catalog : List (String × String))
    (h : ∀ p ∈ catalog, (parse_unicode_range p.2).isOk = true) :
    ∃ st : VariantStats,
      process_font_variant fn v w glyphs engine catalog =
        .ok (st, (generate_css fn v w st.subsets cdnBaseUrl).1,
          (generate_css fn v w st.subsets cdnBaseUrl).2) ∧
      st.created_subsets + st.skipped_ranges = catalog.length := by
  obtain ⟨st1, h1, hcnt⟩ :=
    processRangesLoop_ok fn v glyphs engine catalog ⟨catalog.length, 0, 0, 0, []⟩ h
  refine ⟨st1, ?_, by simpa using hcnt⟩
  rw [process_font_variant, h1]

/-- C9 counterexample: a catalog whose first entry has the malformed range
expression `"XYZ"`: the parse error is raised outside the per-range `try`,
so the whole variant aborts — the remaining entry is not processed and no
CSS is emitted — contradicting the claim that a parse failure is contained
at the catalog-entry level. -/
theorem c9_counterexample_parse_failure_aborts_variant :
    (process_font_variant "MyFont" "regular" 400 {65} (fun _ => .ok 100)
      [("bad", "XYZ"), ("latin", "U+0-7F")]).isOk = false := by
  decide

/-- C9 witness: two well-formed catalog entries against an engine that
always raises a structural error: the variant still completes, with both
entries accounted for. -/
theorem c9_witness :
    (∀ p ∈ [("latin", "U+0-7F"), ("kana", "U+3040-309F")],
        (parse_unicode_range p.2).isOk = true) ∧
      ∃ st : VariantStats,
        process_font_variant "MyFont" "regular" 400 {65}
            (fun _ => .error "corrupt table")
            [("latin", "U+0-7F"), ("kana", "U+3040-309F")] =
          .ok (st, (generate_css "MyFont" "regular" 400 st.subsets cdnBaseUrl).1,
            (generate_css "MyFont" "regular" 400 st.subsets cdnBaseUrl).2) ∧
        st.created_subsets + st.skipped_ranges = 2 :=
  ⟨by decide,
    c9_build_failures_contained "MyFont" "regular" 400 {65}
      (fun _ => .error "corrupt table")
      [("latin", "U+0-7F"), ("kana", "U+3040-309F")] (by decide)⟩
